import Mathlib

/-!
Verification of the in-memory todo task tracker: the `Task` entity
(`src/models/task.py`) and the `TodoService` registry
(`src/services/todo_service.py`), shallowly embedded in Lean.

Python strings become `String`, lists become `List`, and the dynamically
typed `completed` argument becomes `PyVal` (a value that is either a
boolean or something else, so that `isinstance(x, bool)` is expressible).
Methods that may raise return an `Except` carrying the error next to the
post-state, since a raised exception in Python leaves the mutated
registry observable to the caller.
-/

namespace Todo

/-- A dynamically typed Python value, as far as the service inspects it:
the registry only ever asks `isinstance(x, bool)` of the `completed`
argument, so we distinguish booleans from everything else. -/
inductive PyVal where
  | bool (b : Bool)
  | int (n : Int)
  | str (s : String)
  | pynone
deriving DecidableEq, Repr

/-- `isinstance(v, bool)`. -/
def PyVal.isBool : PyVal → Bool
  | .bool _ => true
  | _ => false

/-- Characters removed by Python's `str.strip()` (ASCII whitespace). -/
def pyWs (c : Char) : Bool :=
  c = ' ' || c = '\t' || c = '\n' || c = '\r' || c = Char.ofNat 11 || c = Char.ofNat 12

/-- Python `s.strip()`: drop leading and trailing whitespace. -/
def pyStrip (s : String) : String :=
  String.mk (((s.data.dropWhile pyWs).reverse.dropWhile pyWs).reverse)

/-- The `Task` entity of `src/models/task.py`: id, title, description,
completion flag. The stored `completed` is a `Bool` because construction
and the setter reject any non-boolean before storing. -/
structure Task where
  id : Int
  title : String
  description : String
  completed : Bool
deriving DecidableEq, Repr

/-- `Task._validate_task_id`: rejects a non-positive id. -/
def validate_task_id (task_id : Int) : Except String Unit :=
  if task_id ≤ 0 then .error "Task ID must be a positive integer" else .ok ()

/-- `Task._validate_title`: rejects an empty, whitespace-only or
over-200-character title, in that order. -/
def validate_title (title : String) : Except String Unit :=
  if title = "" then .error "Title must be a non-empty string"
  else if pyStrip title = "" then .error "Title cannot be whitespace-only"
  else if title.length > 200 then .error "Title must not exceed 200 characters"
  else .ok ()

/-- `Task._validate_description`: rejects an over-1000-character description. -/
def validate_description (description : String) : Except String Unit :=
  if description.length > 1000 then .error "Description must not exceed 1000 characters"
  else .ok ()

/-- `Task._validate_completed`: rejects a non-boolean. -/
def validate_completed (completed : PyVal) : Except String Unit :=
  match completed with
  | .bool _ => .ok ()
  | _ => .error "Completed status must be a boolean"

/-- `Task.__init__`: validates the four fields in order, then stores them.
Raising `ValueError` is modelled as returning `.error msg`. -/
def Task.make (task_id : Int) (title : String) (description : String := "")
    (completed : PyVal := .bool false) : Except String Task :=
  match validate_task_id task_id with
  | .error e => .error e
  | .ok _ =>
    match validate_title title with
    | .error e => .error e
    | .ok _ =>
      match validate_description description with
      | .error e => .error e
      | .ok _ =>
        match completed with
        | .bool b => .ok ⟨task_id, title, description, b⟩
        | _ => .error "Completed status must be a boolean"

/-- The `title` setter: re-validates, then assigns. -/
def Task.setTitle (t : Task) (value : String) : Except String Task :=
  match validate_title value with
  | .error e => .error e
  | .ok _ => .ok { t with title := value }

/-- The `description` setter: re-validates, then assigns. -/
def Task.setDescription (t : Task) (value : String) : Except String Task :=
  match validate_description value with
  | .error e => .error e
  | .ok _ => .ok { t with description := value }

/-- The `completed` setter: re-validates, then assigns. -/
def Task.setCompleted (t : Task) (value : PyVal) : Except String Task :=
  match value with
  | .bool b => .ok { t with completed := b }
  | _ => .error "Completed status must be a boolean"

/-- `Task.to_dict`: the mapping with keys id, title, description, completed.
A dict with possibly-missing optional keys is a `TaskMap`. -/
structure TaskMap where
  id : Int
  title : String
  description : Option String
  completed : Option PyVal
deriving DecidableEq, Repr

/-- `Task.to_dict`: all four keys present. -/
def Task.to_dict (t : Task) : TaskMap :=
  ⟨t.id, t.title, some t.description, some (.bool t.completed)⟩

/-- `Task.from_dict`: reads id and title, defaults a missing description
to `""` and a missing completed to `False`, then runs the constructor. -/
def Task.from_dict (m : TaskMap) : Except String Task :=
  Task.make m.id m.title (m.description.getD "") (m.completed.getD (.bool false))

/-- A `Task` whose four fields satisfy every field validator. -/
def taskValid (t : Task) : Prop :=
  0 < t.id ∧ t.title ≠ "" ∧ pyStrip t.title ≠ "" ∧ t.title.length ≤ 200 ∧
    t.description.length ≤ 1000

instance (t : Task) : Decidable (taskValid t) := by
  unfold taskValid
  infer_instance

/-- The errors raised across the registry's public boundary
(`src/services/exceptions.py`): only `InvalidTaskInputError` escapes;
`TaskNotFoundError` is always caught inside the service. -/
inductive SvcError where
  | invalidTaskInput (msg : String)
deriving DecidableEq, Repr

/-- The `TodoService` state: the ordered task list and the next-id counter
(`self._tasks`, `self._next_id`). -/
structure TodoService where
  tasks : List Task
  next_id : Int
deriving DecidableEq, Repr

/-- `TodoService.__init__`: empty list, counter at 1. -/
def TodoService.init : TodoService := ⟨[], 1⟩

/-- `TodoService.get_task_by_id`: linear scan, first task with the id. -/
def get_task_by_id (s : TodoService) (task_id : Int) : Option Task :=
  s.tasks.find? (fun t => t.id = task_id)

/-- `TodoService.get_all_tasks` returns `self._tasks.copy()`; the value
of the copy is the list itself (aliasing is modelled separately). -/
def get_all_tasks (s : TodoService) : List Task :=
  s.tasks

/-- Mutate, in place, the first task in the list carrying the given id:
the Python loop/setter touches only the object `get_task_by_id` found. -/
def mutateFirstById (tasks : List Task) (task_id : Int) (f : Task → Task) : List Task :=
  match tasks with
  | [] => []
  | t :: rest =>
    if t.id = task_id then f t :: rest
    else t :: mutateFirstById rest task_id f

/-- Remove the first task in the list carrying the given id
(`self._tasks.remove(task)` where `task` was found by id). -/
def removeFirstById (tasks : List Task) (task_id : Int) : List Task :=
  match tasks with
  | [] => []
  | t :: rest =>
    if t.id = task_id then rest
    else t :: removeFirstById rest task_id

/-- `TodoService.add_task`: rejects an empty/whitespace-only title up
front, then constructs the `Task` (wrapping its `ValueError` as
`InvalidTaskInputError`), appends it and increments the counter.
The pair carries the raised-or-returned outcome and the post-state. -/
def add_task (s : TodoService) (title : String) (description : String := "") :
    Except SvcError Task × TodoService :=
  if title = "" ∨ pyStrip title = "" then
    (.error (.invalidTaskInput "Title cannot be empty or whitespace-only"), s)
  else
    match Task.make s.next_id title description (.bool false) with
    | .error e => (.error (.invalidTaskInput ("Invalid task input: " ++ e)), s)
    | .ok task => (.ok task, ⟨s.tasks ++ [task], s.next_id + 1⟩)

/-- `TodoService.update_task`: returns `False` when the id is absent;
otherwise applies the provided title through the setter (raising
`InvalidTaskInputError` on a `ValueError`), then the provided
description likewise, and returns `True`. A raise after the title was
assigned leaves the assigned title in the post-state. -/
def update_task (s : TodoService) (task_id : Int)
    (title : Option String := none) (description : Option String := none) :
    Except SvcError Bool × TodoService :=
  match get_task_by_id s task_id with
  | none => (.ok false, s)
  | some _ =>
    match title with
    | none =>
      match description with
      | none => (.ok true, s)
      | some d =>
        match validate_description d with
        | .error e => (.error (.invalidTaskInput ("Invalid description: " ++ e)), s)
        | .ok _ =>
          (.ok true, ⟨mutateFirstById s.tasks task_id (fun t => { t with description := d }),
            s.next_id⟩)
    | some ti =>
      match validate_title ti with
      | .error e => (.error (.invalidTaskInput ("Invalid title: " ++ e)), s)
      | .ok _ =>
        let s1 : TodoService :=
          ⟨mutateFirstById s.tasks task_id (fun t => { t with title := ti }), s.next_id⟩
        match description with
        | none => (.ok true, s1)
        | some d =>
          match validate_description d with
          | .error e => (.error (.invalidTaskInput ("Invalid description: " ++ e)), s1)
          | .ok _ =>
            (.ok true, ⟨mutateFirstById s1.tasks task_id (fun t => { t with description := d }),
              s1.next_id⟩)

/-- `TodoService.update_task_status`: returns `False` when the id is
absent; raises when `completed` is not a boolean; otherwise sets the
flag on the first task with the id and returns `True`. -/
def update_task_status (s : TodoService) (task_id : Int) (completed : PyVal) :
    Except SvcError Bool × TodoService :=
  match get_task_by_id s task_id with
  | none => (.ok false, s)
  | some _ =>
    match completed with
    | .bool b =>
      (.ok true, ⟨mutateFirstById s.tasks task_id (fun t => { t with completed := b }),
        s.next_id⟩)
    | _ => (.error (.invalidTaskInput "Completion status must be a boolean"), s)

/-- `TodoService.delete_task`: returns `False` when the id is absent;
otherwise removes the found task and returns `True`. -/
def delete_task (s : TodoService) (task_id : Int) : Except SvcError Bool × TodoService :=
  match get_task_by_id s task_id with
  | none => (.ok false, s)
  | some _ => (.ok true, ⟨removeFirstById s.tasks task_id, s.next_id⟩)

/-- Did the call raise? -/
def isErr {ε α : Type} : Except ε α → Bool
  | .error _ => true
  | .ok _ => false

/-- One mutating call on the registry, for reasoning over whole call
sequences. -/
inductive Op where
  | add (title description : String)
  | update (task_id : Int) (title description : Option String)
  | setCompleted (task_id : Int) (completed : PyVal)
  | delete (task_id : Int)
deriving DecidableEq, Repr

/-- The registry state after one call (whether or not it raised). -/
def applyOp (s : TodoService) : Op → TodoService
  | .add ti d => (add_task s ti d).2
  | .update i ti de => (update_task s i ti de).2
  | .setCompleted i c => (update_task_status s i c).2
  | .delete i => (delete_task s i).2

/-- Run a call sequence, collecting in order the id assigned by each
successful `add`. -/
def runTrace (s : TodoService) : List Op → TodoService × List Int
  | [] => (s, [])
  | .add ti d :: rest =>
    match add_task s ti d with
    | (.ok task, s1) =>
      let p := runTrace s1 rest
      (p.1, task.id :: p.2)
    | (.error _, s1) => runTrace s1 rest
  | .update i ti de :: rest => runTrace (update_task s i ti de).2 rest
  | .setCompleted i c :: rest => runTrace (update_task_status s i c).2 rest
  | .delete i :: rest => runTrace (delete_task s i).2 rest

/-- A registry object on a Python heap of list objects, to state what
`self._tasks.copy()` buys: `cells` are the live list objects, and the
registry's own list is the one at index `tasksPtr`. -/
structure RegistryObj where
  cells : List (List Task)
  tasksPtr : Nat
deriving DecidableEq, Repr

/-- Dereference a list object. -/
def readPtr (r : RegistryObj) (p : Nat) : List Task :=
  r.cells.getD p []

/-- `get_all_tasks` under the heap model: `self._tasks.copy()` allocates
a fresh list object with the same contents and returns a pointer to it. -/
def get_all_tasks_alias (r : RegistryObj) : Nat × RegistryObj :=
  (r.cells.length, ⟨r.cells ++ [readPtr r r.tasksPtr], r.tasksPtr⟩)

/-- A caller-side in-place mutation (append/remove/reorder/...) of the
list object at `p`. -/
def mutateSeq (r : RegistryObj) (p : Nat) (f : List Task → List Task) : RegistryObj :=
  ⟨r.cells.set p (f (readPtr r p)), r.tasksPtr⟩

/-- A one-task example registry: the state after `add_task init "A"`. -/
def exampleS : TodoService := (add_task TodoService.init "A").2

/-! ### Helper lemmas -/

theorem find?_id_split {tasks : List Task} {tid : Int} {t : Task}
    (h : tasks.find? (fun u => u.id = tid) = some t) :
    ∃ l1 l2, tasks = l1 ++ t :: l2 ∧ (∀ u ∈ l1, u.id ≠ tid) ∧ t.id = tid := by
  induction tasks with
  | nil => simp at h
  | cons a rest ih =>
    by_cases hid : a.id = tid
    · rw [List.find?_cons_of_pos _ (by simp [hid])] at h
      obtain rfl : a = t := by injection h
      exact ⟨[], rest, rfl, by simp, hid⟩
    · rw [List.find?_cons_of_neg _ (by simp [hid])] at h
      obtain ⟨l1, l2, heq, hni, hidt⟩ := ih h
      refine ⟨a :: l1, l2, by simp [heq], ?_, hidt⟩
      intro u hu
      rcases List.mem_cons.mp hu with rfl | hu
      · exact hid
      · exact hni u hu

theorem mutateFirstById_append {l1 l2 : List Task} {t : Task} {tid : Int} (f : Task → Task)
    (h1 : ∀ u ∈ l1, u.id ≠ tid) (h2 : t.id = tid) :
    mutateFirstById (l1 ++ t :: l2) tid f = l1 ++ f t :: l2 := by
  induction l1 with
  | nil => simp [mutateFirstById, h2]
  | cons a rest ih =>
    simp only [List.cons_append, mutateFirstById]
    rw [if_neg (h1 a (by simp))]
    exact congrArg (List.cons a) (ih (fun u hu => h1 u (by simp [hu])))

theorem removeFirstById_append {l1 l2 : List Task} {t : Task} {tid : Int}
    (h1 : ∀ u ∈ l1, u.id ≠ tid) (h2 : t.id = tid) :
    removeFirstById (l1 ++ t :: l2) tid = l1 ++ l2 := by
  induction l1 with
  | nil => simp [removeFirstById, h2]
  | cons a rest ih =>
    simp only [List.cons_append, removeFirstById]
    rw [if_neg (h1 a (by simp))]
    exact congrArg (List.cons a) (ih (fun u hu => h1 u (by simp [hu])))

theorem find?_removeFirstById {tasks : List Task} {tid : Int}
    (h : tasks.Pairwise (fun a b => a.id ≠ b.id)) :
    (removeFirstById tasks tid).find? (fun u => u.id = tid) = none := by
  induction tasks with
  | nil => simp [removeFirstById]
  | cons a rest ih =>
    rw [List.pairwise_cons] at h
    obtain ⟨ha, hrest⟩ := h
    by_cases hid : a.id = tid
    · simp only [removeFirstById, if_pos hid]
      rw [List.find?_eq_none]
      intro u hu
      simp only [decide_eq_true_eq]
      intro hc
      exact ha u hu (hid ▸ hc ▸ rfl)
    · simp only [removeFirstById, if_neg hid]
      rw [List.find?_cons_of_neg _ (by simp [hid])]
      exact ih hrest

theorem validate_title_err_iff (ti : String) :
    isErr (validate_title ti) = true ↔ ti = "" ∨ pyStrip ti = "" ∨ 200 < ti.length := by
  unfold validate_title
  split_ifs with h1 h2 h3
  · simp [isErr, h1]
  · simp [isErr, h2]
  · simp [isErr, h3]
  · simp [isErr, h1, h2, h3]

theorem validate_title_ok_iff (ti : String) :
    validate_title ti = .ok () ↔ ¬(ti = "" ∨ pyStrip ti = "" ∨ 200 < ti.length) := by
  unfold validate_title
  split_ifs with h1 h2 h3
  · simp [h1]
  · simp [h2]
  · simp [h3]
  · simp [h1, h2, h3]

theorem validate_description_err_iff (d : String) :
    isErr (validate_description d) = true ↔ 1000 < d.length := by
  unfold validate_description
  split_ifs with h1
  · simp [isErr, h1]
  · simp [isErr, h1]

theorem validate_description_ok_iff (d : String) :
    validate_description d = .ok () ↔ d.length ≤ 1000 := by
  unfold validate_description
  split_ifs with h1
  · refine ⟨fun h => by simp at h, fun h => absurd h (by omega)⟩
  · simpa using Nat.le_of_not_lt h1

theorem validate_task_id_ok_iff (task_id : Int) :
    validate_task_id task_id = .ok () ↔ ¬task_id ≤ 0 := by
  unfold validate_task_id
  split_ifs with h
  · simp [h]
  · simp [h]

theorem make_ok_elim {task_id : Int} {title description : String} {c : PyVal} {u : Task}
    (h : Task.make task_id title description c = .ok u) :
    ¬task_id ≤ 0 ∧ validate_title title = .ok () ∧
      validate_description description = .ok () ∧
      ∃ b, c = .bool b ∧ u = ⟨task_id, title, description, b⟩ := by
  unfold Task.make at h
  cases h1 : validate_task_id task_id with
  | error e => rw [h1] at h; simp at h
  | ok w =>
    cases w
    rw [h1] at h
    simp only [] at h
    cases h2 : validate_title title with
    | error e => rw [h2] at h; simp at h
    | ok w2 =>
      cases w2
      rw [h2] at h
      simp only [] at h
      cases h3 : validate_description description with
      | error e => rw [h3] at h; simp at h
      | ok w3 =>
        cases w3
        rw [h3] at h
        simp only [] at h
        rcases c with b | n | st | _
        · simp only [Except.ok.injEq] at h
          exact ⟨(validate_task_id_ok_iff task_id).mp h1, rfl, rfl, b, rfl, h.symm⟩
        · simp at h
        · simp at h
        · simp at h

theorem make_ok_intro (task_id : Int) (title description : String) (b : Bool)
    (h1 : ¬task_id ≤ 0) (h2 : validate_title title = .ok ())
    (h3 : validate_description description = .ok ()) :
    Task.make task_id title description (.bool b) =
      .ok ⟨task_id, title, description, b⟩ := by
  unfold Task.make validate_task_id
  rw [if_neg h1, h2, h3]

/-! ### Claim theorems -/

/-- C7: deleting an existing id returns true, removes exactly the one task
found for that id, keeps every other task with its fields, keeps the
relative order seen through `get_all_tasks`, and keeps the counter. -/
theorem delete_removes_exactly_one (s : TodoService) (tid : Int) (t : Task)
    (h : get_task_by_id s tid = some t) :
    (delete_task s tid).1 = .ok true ∧
    (delete_task s tid).2.next_id = s.next_id ∧
    ∃ l1 l2, s.tasks = l1 ++ t :: l2 ∧ (∀ u ∈ l1, u.id ≠ tid) ∧ t.id = tid ∧
      get_all_tasks (delete_task s tid).2 = l1 ++ l2 := by
  obtain ⟨l1, l2, heq, hni, hidt⟩ := find?_id_split h
  have hrm : removeFirstById s.tasks tid = l1 ++ l2 := by
    rw [heq]
    exact removeFirstById_append hni hidt
  refine ⟨?_, ?_, l1, l2, heq, hni, hidt, ?_⟩
  · simp only [delete_task, h]
  · simp only [delete_task, h]
  · simp only [delete_task, h, get_all_tasks]
    exact hrm

/-- C7 witness at a concrete one-task registry. -/
theorem delete_removes_exactly_one_witness :
    (delete_task exampleS 1).1 = .ok true ∧
    (delete_task exampleS 1).2.next_id = exampleS.next_id ∧
    ∃ l1 l2, exampleS.tasks = l1 ++ (⟨1, "A", "", false⟩ : Task) :: l2 ∧
      (∀ u ∈ l1, u.id ≠ 1) ∧ (⟨1, "A", "", false⟩ : Task).id = 1 ∧
      get_all_tasks (delete_task exampleS 1).2 = l1 ++ l2 :=
  delete_removes_exactly_one exampleS 1 ⟨1, "A", "", false⟩ (by decide)

/-- C6: on an absent id, update, set_completed and delete return false with
the state unchanged (no error escapes), and on a registry with pairwise
distinct ids a deleted id is afterwards absent from `get`. -/
theorem not_found_never_raises (s s2 : TodoService) (tid : Int)
    (ti de : Option String) (c : PyVal) (h : get_task_by_id s tid = none) :
    update_task s tid ti de = (.ok false, s) ∧
    update_task_status s tid c = (.ok false, s) ∧
    delete_task s tid = (.ok false, s) ∧
    (s2.tasks.Pairwise (fun a b => a.id ≠ b.id) →
      get_task_by_id (delete_task s2 tid).2 tid = none) := by
  refine ⟨?_, ?_, ?_, ?_⟩
  · simp only [update_task, h]
  · simp only [update_task_status, h]
  · simp only [delete_task, h]
  · intro hp
    cases hfind : get_task_by_id s2 tid with
    | none => simp only [delete_task, hfind]
    | some u =>
      have hfind2 : s2.tasks.find? (fun t => t.id = tid) = some u := hfind
      simp only [delete_task, get_task_by_id, hfind2]
      exact find?_removeFirstById hp

/-- C6 witness at the empty registry and the concrete one-task registry. -/
theorem not_found_never_raises_witness :
    update_task TodoService.init 1 none none = (.ok false, TodoService.init) ∧
    update_task_status TodoService.init 1 (.int 0) = (.ok false, TodoService.init) ∧
    delete_task TodoService.init 1 = (.ok false, TodoService.init) ∧
    (exampleS.tasks.Pairwise (fun a b => a.id ≠ b.id) →
      get_task_by_id (delete_task exampleS 1).2 1 = none) :=
  not_found_never_raises TodoService.init exampleS 1 none none (.int 0) (by decide)

/-- C10: `update_task_status` checks existence before the boolean check:
an absent id yields false (never an error) even for a non-boolean
`completed`, and an error implies the id exists. -/
theorem set_completed_existence_before_type (s : TodoService) (tid : Int) (c : PyVal) :
    (get_task_by_id s tid = none → update_task_status s tid c = (.ok false, s)) ∧
    (∀ e, (update_task_status s tid c).1 = .error e → ∃ t, get_task_by_id s tid = some t) := by
  constructor
  · intro h
    simp only [update_task_status, h]
  · intro e he
    cases hfind : get_task_by_id s tid with
    | none =>
      unfold update_task_status at he
      rw [hfind] at he
      simp at he
    | some t => exact ⟨t, rfl⟩

/-- C10 witness: an absent id with a non-boolean completed returns false. -/
theorem set_completed_existence_before_type_witness :
    update_task_status TodoService.init 5 (.int 3) = (.ok false, TodoService.init) :=
  (set_completed_existence_before_type TodoService.init 5 (.int 3)).1 (by decide)

/-- C5: `update_task_status` returns false on an absent id; raises
`InvalidTaskInputError` (state unchanged) when the id exists and
`completed` is not a boolean; otherwise sets exactly that task's
completed flag to the given boolean and returns true. -/
theorem set_completed_spec (s : TodoService) (tid : Int) (c : PyVal) :
    (get_task_by_id s tid = none → update_task_status s tid c = (.ok false, s)) ∧
    (get_task_by_id s tid ≠ none → c.isBool = false →
      update_task_status s tid c =
        (.error (.invalidTaskInput "Completion status must be a boolean"), s)) ∧
    (∀ t b, get_task_by_id s tid = some t → c = .bool b →
      (update_task_status s tid c).1 = .ok true ∧
      (update_task_status s tid c).2.next_id = s.next_id ∧
      ∃ l1 l2, s.tasks = l1 ++ t :: l2 ∧ (∀ u ∈ l1, u.id ≠ tid) ∧
        (update_task_status s tid c).2.tasks = l1 ++ { t with completed := b } :: l2) := by
  refine ⟨fun h => by simp only [update_task_status, h], ?_, ?_⟩
  · intro hne hc
    cases hfind : get_task_by_id s tid with
    | none => exact absurd hfind hne
    | some t =>
      rcases c with b | n | st | _
      · simp [PyVal.isBool] at hc
      · simp only [update_task_status, hfind]
      · simp only [update_task_status, hfind]
      · simp only [update_task_status, hfind]
  · intro t b hfind hc
    subst hc
    obtain ⟨l1, l2, heq, hni, hidt⟩ := find?_id_split hfind
    have hmut : mutateFirstById s.tasks tid (fun u => { u with completed := b }) =
        l1 ++ { t with completed := b } :: l2 := by
      rw [heq]
      exact mutateFirstById_append (fun u => { u with completed := b }) hni hidt
    refine ⟨?_, ?_, l1, l2, heq, hni, ?_⟩


    · simp only [update_task_status, hfind]
    · simp only [update_task_status, hfind]
    · simp only [update_task_status, hfind]
      exact hmut

/-- C5 witness at a concrete one-task registry. -/
theorem set_completed_spec_witness :
    (update_task_status exampleS 1 (.bool true)).1 = .ok true ∧
    (update_task_status exampleS 1 (.bool true)).2.next_id = exampleS.next_id ∧
    ∃ l1 l2, exampleS.tasks = l1 ++ (⟨1, "A", "", false⟩ : Task) :: l2 ∧
      (∀ u ∈ l1, u.id ≠ 1) ∧
      (update_task_status exampleS 1 (.bool true)).2.tasks =
        l1 ++ ({ (⟨1, "A", "", false⟩ : Task) with completed := true }) :: l2 :=
  (set_completed_spec exampleS 1 (.bool true)).2.2 ⟨1, "A", "", false⟩ true (by decide) rfl

/-- C3: `Task` construction raises exactly on id ≤ 0, an empty,
whitespace-only or over-200-character title, an over-1000-character
description, or a non-boolean completed; each setter re-runs the same
field check and fails identically; and every task coming out of a
successful construction or setter call has only valid field values. -/
theorem task_validation_characterisation (id : Int) (title description : String)
    (c : PyVal) (t : Task) (v dv : String) (cv : PyVal) :
    (isErr (Task.make id title description c) = true ↔
      (id ≤ 0 ∨ title = "" ∨ pyStrip title = "" ∨ 200 < title.length ∨
        1000 < description.length ∨ c.isBool = false)) ∧
    (isErr (t.setTitle v) = true ↔ (v = "" ∨ pyStrip v = "" ∨ 200 < v.length)) ∧
    (isErr (t.setDescription dv) = true ↔ 1000 < dv.length) ∧
    (isErr (t.setCompleted cv) = true ↔ cv.isBool = false) ∧
    (∀ u, Task.make id title description c = .ok u → taskValid u) ∧
    (∀ u, taskValid t → t.setTitle v = .ok u → taskValid u) ∧
    (∀ u, taskValid t → t.setDescription dv = .ok u → taskValid u) ∧
    (∀ u, taskValid t → t.setCompleted cv = .ok u → taskValid u) := by
  refine ⟨?_, ?_, ?_, ?_, ?_, ?_, ?_, ?_⟩
  · constructor
    · intro he
      by_contra hno
      push_neg at hno
      obtain ⟨g1, g2, g3, g4, g5, g6⟩ := hno
      rcases c with b | n | st | _
      · rw [make_ok_intro id title description b (by omega)
          ((validate_title_ok_iff title).mpr (by push_neg; exact ⟨g2, g3, by omega⟩))
          ((validate_description_ok_iff description).mpr (by omega))] at he
        simp [isErr] at he
      · simp [PyVal.isBool] at g6
      · simp [PyVal.isBool] at g6
      · simp [PyVal.isBool] at g6
    · intro hd
      cases he : Task.make id title description c with
      | error e => simp [isErr]
      | ok u =>
        exfalso
        obtain ⟨k1, k2, k3, b, hb, _⟩ := make_ok_elim he
        have k2a := (validate_title_ok_iff title).mp k2
        have k3a := (validate_description_ok_iff description).mp k3
        push_neg at k2a
        rcases hd with g | g | g | g | g | g
        · exact k1 (by omega)
        · exact k2a.1 g
        · exact k2a.2.1 g
        · exact absurd g (by omega)
        · exact absurd g (by omega)
        · rw [hb] at g; simp [PyVal.isBool] at g
  · rw [← validate_title_err_iff v]
    unfold Task.setTitle
    cases validate_title v <;> simp [isErr]
  · rw [← validate_description_err_iff dv]
    unfold Task.setDescription
    cases validate_description dv <;> simp [isErr]
  · unfold Task.setCompleted
    rcases cv with b | n | st | _ <;> simp [isErr, PyVal.isBool]
  · intro u hu
    obtain ⟨k1, k2, k3, b, _, rfl⟩ := make_ok_elim hu
    have k2a := (validate_title_ok_iff title).mp k2
    have k3a := (validate_description_ok_iff description).mp k3
    push_neg at k2a
    show 0 < id ∧ title ≠ "" ∧ pyStrip title ≠ "" ∧
      title.length ≤ 200 ∧ description.length ≤ 1000
    exact ⟨by omega, k2a.1, k2a.2.1, k2a.2.2, k3a⟩
  · intro u hv hok
    unfold Task.setTitle at hok
    cases hvt : validate_title v with
    | error e => rw [hvt] at hok; simp at hok
    | ok w =>
      cases w
      rw [hvt] at hok
      simp only [Except.ok.injEq] at hok
      subst hok
      have hvo := (validate_title_ok_iff v).mp hvt
      push_neg at hvo
      obtain ⟨hv1, hv2, hv3⟩ := hvo
      obtain ⟨g1, g2, g3, g4, g5⟩ := hv
      exact ⟨g1, hv1, hv2, hv3, g5⟩
  · intro u hv hok
    unfold Task.setDescription at hok
    cases hvd : validate_description dv with
    | error e => rw [hvd] at hok; simp at hok
    | ok w =>
      cases w
      rw [hvd] at hok
      simp only [Except.ok.injEq] at hok
      subst hok
      have hdo := (validate_description_ok_iff dv).mp hvd
      obtain ⟨g1, g2, g3, g4, g5⟩ := hv
      exact ⟨g1, g2, g3, g4, hdo⟩
  · intro u hv hok
    unfold Task.setCompleted at hok
    rcases cv with b | n | st | _
    · simp only [Except.ok.injEq] at hok
      subst hok
      obtain ⟨g1, g2, g3, g4, g5⟩ := hv
      exact ⟨g1, g2, g3, g4, g5⟩
    · simp at hok
    · simp at hok
    · simp at hok

/-- C3 witness: a concrete valid construction and concrete setter calls. -/
theorem task_validation_characterisation_witness :
    taskValid ⟨1, "a", "", false⟩ :=
  (task_validation_characterisation 1 "a" "" (.bool false)
      ⟨1, "a", "", false⟩ "a" "" (.bool false)).2.2.2.2.1
    ⟨1, "a", "", false⟩ rfl

/-- C8: `from_dict` of `to_dict` rebuilds a valid task with the same four
fields, and a missing description key defaults to `""`, a missing
completed key to `False`. -/
theorem from_dict_to_dict_roundtrip (t : Task) (m : TaskMap) (hv : taskValid t) :
    Task.from_dict (Task.to_dict t) = .ok t ∧
    (m.description = none → m.completed = none →
      Task.from_dict m = Task.make m.id m.title "" (.bool false)) := by
  constructor
  · obtain ⟨h1, h2, h3, h4, h5⟩ := hv
    have hok := make_ok_intro t.id t.title t.description t.completed (by omega)
      ((validate_title_ok_iff t.title).mpr (by push_neg; exact ⟨h2, h3, h4⟩))
      ((validate_description_ok_iff t.description).mpr h5)
    calc Task.from_dict (Task.to_dict t)
        = Task.make t.id t.title t.description (.bool t.completed) := rfl
      _ = .ok ⟨t.id, t.title, t.description, t.completed⟩ := hok
      _ = .ok t := rfl
  · intro hd hc
    unfold Task.from_dict
    rw [hd, hc]
    rfl

/-- C8 witness at a concrete valid task and a keys-missing map. -/
theorem from_dict_to_dict_roundtrip_witness :
    Task.from_dict (Task.to_dict ⟨1, "a", "", false⟩) = .ok ⟨1, "a", "", false⟩ ∧
    ((⟨1, "a", none, none⟩ : TaskMap).description = none →
      (⟨1, "a", none, none⟩ : TaskMap).completed = none →
      Task.from_dict ⟨1, "a", none, none⟩ = Task.make 1 "a" "" (.bool false)) :=
  from_dict_to_dict_roundtrip ⟨1, "a", "", false⟩ ⟨1, "a", none, none⟩ (by decide)

/-- C4: `update_task` returns false on an absent id; with the id present
it returns true applying only the provided fields (also as a no-op when
neither is provided); a failing provided title raises with the whole
state untouched (the description unmodified); a failing provided
description raises only after a provided valid title has been applied
(title before description). -/
theorem update_task_spec (s : TodoService) (tid : Int) (ti? de? : Option String) :
    (get_task_by_id s tid = none → update_task s tid ti? de? = (.ok false, s)) ∧
    (get_task_by_id s tid ≠ none → ti? = none → de? = none →
      update_task s tid ti? de? = (.ok true, s)) ∧
    (∀ ti e, get_task_by_id s tid ≠ none → ti? = some ti →
      validate_title ti = .error e →
      update_task s tid ti? de? =
        (.error (.invalidTaskInput ("Invalid title: " ++ e)), s)) ∧
    (∀ d e, get_task_by_id s tid ≠ none → ti? = none → de? = some d →
      validate_description d = .error e →
      update_task s tid ti? de? =
        (.error (.invalidTaskInput ("Invalid description: " ++ e)), s)) ∧
    (∀ t ti, get_task_by_id s tid = some t → ti? = some ti →
      validate_title ti = .ok () → de? = none →
      (update_task s tid ti? de?).1 = .ok true ∧
      ∃ l1 l2, s.tasks = l1 ++ t :: l2 ∧ (∀ u ∈ l1, u.id ≠ tid) ∧
        (update_task s tid ti? de?).2 =
          ⟨l1 ++ { t with title := ti } :: l2, s.next_id⟩) ∧
    (∀ t d, get_task_by_id s tid = some t → ti? = none → de? = some d →
      validate_description d = .ok () →
      (update_task s tid ti? de?).1 = .ok true ∧
      ∃ l1 l2, s.tasks = l1 ++ t :: l2 ∧ (∀ u ∈ l1, u.id ≠ tid) ∧
        (update_task s tid ti? de?).2 =
          ⟨l1 ++ { t with description := d } :: l2, s.next_id⟩) ∧
    (∀ t ti d e, get_task_by_id s tid = some t → ti? = some ti →
      validate_title ti = .ok () → de? = some d →
      validate_description d = .error e →
      (update_task s tid ti? de?).1 =
        .error (.invalidTaskInput ("Invalid description: " ++ e)) ∧
      ∃ l1 l2, s.tasks = l1 ++ t :: l2 ∧ (∀ u ∈ l1, u.id ≠ tid) ∧
        (update_task s tid ti? de?).2 =
          ⟨l1 ++ { t with title := ti } :: l2, s.next_id⟩) ∧
    (∀ t ti d, get_task_by_id s tid = some t → ti? = some ti →
      validate_title ti = .ok () → de? = some d →
      validate_description d = .ok () →
      (update_task s tid ti? de?).1 = .ok true ∧
      ∃ l1 l2, s.tasks = l1 ++ t :: l2 ∧ (∀ u ∈ l1, u.id ≠ tid) ∧
        (update_task s tid ti? de?).2 =
          ⟨l1 ++ { t with title := ti, description := d } :: l2, s.next_id⟩) := by
  refine ⟨?_, ?_, ?_, ?_, ?_, ?_, ?_, ?_⟩
  · intro h
    simp only [update_task, h]
  · intro hne h1 h2
    subst h1
    subst h2
    cases hfind : get_task_by_id s tid with
    | none => exact absurd hfind hne
    | some t => simp only [update_task, hfind]
  · intro ti e hne hti hvt
    subst hti
    cases hfind : get_task_by_id s tid with
    | none => exact absurd hfind hne
    | some t => simp only [update_task, hfind, hvt]
  · intro d e hne hti hde hvd
    subst hti
    subst hde
    cases hfind : get_task_by_id s tid with
    | none => exact absurd hfind hne
    | some t => simp only [update_task, hfind, hvd]
  · intro t ti hfind hti hvt hde
    subst hti
    subst hde
    obtain ⟨l1, l2, heq, hni, hidt⟩ := find?_id_split hfind
    have hmut : mutateFirstById s.tasks tid (fun u => { u with title := ti }) =
        l1 ++ { t with title := ti } :: l2 := by
      rw [heq]
      exact mutateFirstById_append _ hni hidt
    constructor
    · simp only [update_task, hfind, hvt]
    · refine ⟨l1, l2, heq, hni, ?_⟩
      simp only [update_task, hfind, hvt]
      rw [hmut]
  · intro t d hfind hti hde hvd
    subst hti
    subst hde
    obtain ⟨l1, l2, heq, hni, hidt⟩ := find?_id_split hfind
    have hmut : mutateFirstById s.tasks tid (fun u => { u with description := d }) =
        l1 ++ { t with description := d } :: l2 := by
      rw [heq]
      exact mutateFirstById_append _ hni hidt
    constructor
    · simp only [update_task, hfind, hvd]
    · refine ⟨l1, l2, heq, hni, ?_⟩
      simp only [update_task, hfind, hvd]
      rw [hmut]
  · intro t ti d e hfind hti hvt hde hvd
    subst hti
    subst hde
    obtain ⟨l1, l2, heq, hni, hidt⟩ := find?_id_split hfind
    have hmut : mutateFirstById s.tasks tid (fun u => { u with title := ti }) =
        l1 ++ { t with title := ti } :: l2 := by
      rw [heq]
      exact mutateFirstById_append _ hni hidt
    constructor
    · simp only [update_task, hfind, hvt, hvd]
    · refine ⟨l1, l2, heq, hni, ?_⟩
      simp only [update_task, hfind, hvt, hvd]
      rw [hmut]
  · intro t ti d hfind hti hvt hde hvd
    subst hti
    subst hde
    obtain ⟨l1, l2, heq, hni, hidt⟩ := find?_id_split hfind
    have hmut1 : mutateFirstById s.tasks tid (fun u => { u with title := ti }) =
        l1 ++ { t with title := ti } :: l2 := by
      rw [heq]
      exact mutateFirstById_append _ hni hidt
    have hmut2 : mutateFirstById (l1 ++ { t with title := ti } :: l2) tid
        (fun u => { u with description := d }) =
        l1 ++ { { t with title := ti } with description := d } :: l2 :=
      mutateFirstById_append _ hni hidt
    constructor
    · simp only [update_task, hfind, hvt, hvd]
    · refine ⟨l1, l2, heq, hni, ?_⟩
      simp only [update_task, hfind, hvt, hvd]
      rw [hmut1, hmut2]

/-- C4 witness: a full two-field update at a concrete one-task registry. -/
theorem update_task_spec_witness :
    (update_task exampleS 1 (some "B") (some "d")).1 = .ok true ∧
    ∃ l1 l2, exampleS.tasks = l1 ++ (⟨1, "A", "", false⟩ : Task) :: l2 ∧
      (∀ u ∈ l1, u.id ≠ 1) ∧
      (update_task exampleS 1 (some "B") (some "d")).2 =
        ⟨l1 ++ ({ (⟨1, "A", "", false⟩ : Task) with title := "B", description := "d" }) :: l2,
          exampleS.next_id⟩ :=
  (update_task_spec exampleS 1 (some "B") (some "d")).2.2.2.2.2.2.2
    ⟨1, "A", "", false⟩ "B" "d" (by decide) rfl rfl rfl rfl

set_option maxRecDepth 100000 in
/-- C1 counterexample: an update given a valid title and an over-long
(invalid) description raises InvalidInputError, yet the registry is not
left as it was before the call — the new title has been applied. -/
theorem invalid_update_intact_counterexample :
    isErr (update_task exampleS 1 (some "B")
        (some (String.mk (List.replicate 1001 'x')))).1 = true ∧
    (update_task exampleS 1 (some "B")
        (some (String.mk (List.replicate 1001 'x')))).2 ≠ exampleS ∧
    get_task_by_id (update_task exampleS 1 (some "B")
        (some (String.mk (List.replicate 1001 'x')))).2 1 =
      some ⟨1, "B", "", false⟩ ∧
    get_task_by_id exampleS 1 = some ⟨1, "A", "", false⟩ := by
  refine ⟨by decide, by decide, by decide, by decide⟩

/-- C1 amended: a rejected add or set_completed leaves the registry
exactly as it was, and a rejected update either leaves it exactly as it
was or (when the provided title was valid and the provided description
invalid) leaves it as it was except that the found task's title has been
set to the provided title. -/
theorem invalid_input_state_amended (s : TodoService) (title description : String)
    (tid : Int) (ti? de? : Option String) (c : PyVal) :
    (isErr (add_task s title description).1 = true →
      (add_task s title description).2 = s) ∧
    (isErr (update_task_status s tid c).1 = true →
      (update_task_status s tid c).2 = s) ∧
    (isErr (update_task s tid ti? de?).1 = true →
      ((update_task s tid ti? de?).2 = s ∨
        ∃ ti, ti? = some ti ∧ validate_title ti = .ok () ∧
          (update_task s tid ti? de?).2 =
            ⟨mutateFirstById s.tasks tid (fun t => { t with title := ti }),
              s.next_id⟩)) := by
  refine ⟨?_, ?_, ?_⟩
  · intro he
    unfold add_task at he ⊢
    split_ifs at he ⊢ with h1
    · rfl
    · cases hm : Task.make s.next_id title description (.bool false) with
      | error e => rfl
      | ok task =>
        rw [hm] at he
        simp [isErr] at he
  · intro he
    cases hfind : get_task_by_id s tid with
    | none => simp only [update_task_status, hfind]
    | some t =>
      rcases c with b | n | st | _
      · simp [update_task_status, hfind, isErr] at he
      · simp only [update_task_status, hfind]
      · simp only [update_task_status, hfind]
      · simp only [update_task_status, hfind]
  · intro he
    cases hfind : get_task_by_id s tid with
    | none =>
      left
      simp only [update_task, hfind]
    | some t =>
      cases ti? with
      | none =>
        cases de? with
        | none =>
          simp [update_task, hfind, isErr] at he
        | some d =>
          cases hvd : validate_description d with
          | error e =>
            left
            simp only [update_task, hfind, hvd]
          | ok w =>
            cases w
            simp [update_task, hfind, hvd, isErr] at he
      | some ti =>
        cases hvt : validate_title ti with
        | error e =>
          left
          simp only [update_task, hfind, hvt]
        | ok w =>
          cases w
          cases de? with
          | none =>
            simp [update_task, hfind, hvt, isErr] at he
          | some d =>
            cases hvd : validate_description d with
            | error e =>
              right
              exact ⟨ti, rfl, hvt, by simp only [update_task, hfind, hvt, hvd]⟩
            | ok w2 =>
              cases w2
              simp [update_task, hfind, hvt, hvd, isErr] at he

/-- C1 amended witness: a rejected add at the empty registry leaves it
unchanged. -/
theorem invalid_input_state_amended_witness :
    (add_task TodoService.init "" "").2 = TodoService.init :=
  (invalid_input_state_amended TodoService.init "" "" 1 none none (.bool true)).1 rfl

theorem add_task_cases (s : TodoService) (ti d : String) :
    (∃ task, add_task s ti d = (.ok task, ⟨s.tasks ++ [task], s.next_id + 1⟩) ∧
      task.id = s.next_id) ∨
    (∃ e, add_task s ti d = (.error e, s)) := by
  unfold add_task
  split_ifs with h1
  · exact Or.inr ⟨_, rfl⟩
  · cases hm : Task.make s.next_id ti d (.bool false) with
    | error e => exact Or.inr ⟨_, rfl⟩
    | ok task =>
      obtain ⟨_, _, _, b, _, rfl⟩ := make_ok_elim hm
      exact Or.inl ⟨_, rfl, rfl⟩

theorem update_task_next_id (s : TodoService) (tid : Int) (ti? de? : Option String) :
    (update_task s tid ti? de?).2.next_id = s.next_id := by
  cases hfind : get_task_by_id s tid with
  | none => simp only [update_task, hfind]
  | some t =>
    cases ti? with
    | none =>
      cases de? with
      | none => simp only [update_task, hfind]
      | some d =>
        cases hvd : validate_description d with
        | error e => simp only [update_task, hfind, hvd]
        | ok w =>
          cases w
          simp only [update_task, hfind, hvd]
    | some ti =>
      cases hvt : validate_title ti with
      | error e => simp only [update_task, hfind, hvt]
      | ok w =>
        cases w
        cases de? with
        | none => simp only [update_task, hfind, hvt]
        | some d =>
          cases hvd : validate_description d with
          | error e => simp only [update_task, hfind, hvt, hvd]
          | ok w2 =>
            cases w2
            simp only [update_task, hfind, hvt, hvd]

theorem update_task_status_next_id (s : TodoService) (tid : Int) (c : PyVal) :
    (update_task_status s tid c).2.next_id = s.next_id := by
  cases hfind : get_task_by_id s tid with
  | none => simp only [update_task_status, hfind]
  | some t =>
    rcases c with b | n | st | _ <;> simp only [update_task_status, hfind]

theorem delete_task_next_id (s : TodoService) (tid : Int) :
    (delete_task s tid).2.next_id = s.next_id := by
  cases hfind : get_task_by_id s tid with
  | none => simp only [delete_task, hfind]
  | some t => simp only [delete_task, hfind]

theorem runTrace_ids (ops : List Op) : ∀ (s : TodoService),
    (∀ i (h : i < (runTrace s ops).2.length),
      (runTrace s ops).2.get ⟨i, h⟩ = s.next_id + (i : Int)) ∧
    (runTrace s ops).1.next_id = s.next_id + ((runTrace s ops).2.length : Int) := by
  induction ops with
  | nil =>
    intro s
    constructor
    · intro i h
      simp [runTrace] at h
    · simp [runTrace]
  | cons op rest ih =>
    intro s
    cases op with
    | add ti d =>
      rcases add_task_cases s ti d with ⟨task, hadd, hid⟩ | ⟨e, hadd⟩
      · have hrun : runTrace s (.add ti d :: rest) =
            ((runTrace ⟨s.tasks ++ [task], s.next_id + 1⟩ rest).1,
              task.id :: (runTrace ⟨s.tasks ++ [task], s.next_id + 1⟩ rest).2) := by
          simp only [runTrace, hadd]
        obtain ⟨ih1, ih2⟩ := ih ⟨s.tasks ++ [task], s.next_id + 1⟩
        rw [hrun]
        constructor
        · intro i h
          cases i with
          | zero => simpa using hid
          | succ j =>
            have hj : j < (runTrace ⟨s.tasks ++ [task], s.next_id + 1⟩ rest).2.length := by
              simpa using h
            have := ih1 j hj
            simp only [List.get_cons_succ]
            rw [this]
            push_cast
            ring
        · simp only [List.length_cons]
          rw [ih2]
          push_cast
          ring
      · have hrun : runTrace s (.add ti d :: rest) = runTrace s rest := by
          simp only [runTrace, hadd]
        rw [hrun]
        exact ih s
    | update i ti de =>
      have hrun : runTrace s (.update i ti de :: rest) =
          runTrace (update_task s i ti de).2 rest := by
        simp only [runTrace]
      obtain ⟨ih1, ih2⟩ := ih (update_task s i ti de).2
      rw [update_task_next_id] at ih1 ih2
      rw [hrun]
      exact ⟨ih1, ih2⟩
    | setCompleted i c =>
      have hrun : runTrace s (.setCompleted i c :: rest) =
          runTrace (update_task_status s i c).2 rest := by
        simp only [runTrace]
      obtain ⟨ih1, ih2⟩ := ih (update_task_status s i c).2
      rw [update_task_status_next_id] at ih1 ih2
      rw [hrun]
      exact ⟨ih1, ih2⟩
    | delete i =>
      have hrun : runTrace s (.delete i :: rest) =
          runTrace (delete_task s i).2 rest := by
        simp only [runTrace]
      obtain ⟨ih1, ih2⟩ := ih (delete_task s i).2
      rw [delete_task_next_id] at ih1 ih2
      rw [hrun]
      exact ⟨ih1, ih2⟩

/-- C2: along any call sequence from the initial registry, the n-th
successfully added task receives id n (first add gets 1, each next add
one more); no id is ever assigned twice; the final counter is 1 plus the
number of successful adds; and no single operation decreases the
counter. -/
theorem monotone_id_assignment (ops : List Op) (s : TodoService) (op : Op) :
    (∀ i (h : i < (runTrace TodoService.init ops).2.length),
      (runTrace TodoService.init ops).2.get ⟨i, h⟩ = 1 + (i : Int)) ∧
    (∀ i j (hi : i < (runTrace TodoService.init ops).2.length)
      (hj : j < (runTrace TodoService.init ops).2.length), i ≠ j →
      (runTrace TodoService.init ops).2.get ⟨i, hi⟩ ≠
        (runTrace TodoService.init ops).2.get ⟨j, hj⟩) ∧
    (runTrace TodoService.init ops).1.next_id =
      1 + ((runTrace TodoService.init ops).2.length : Int) ∧
    s.next_id ≤ (applyOp s op).next_id := by
  obtain ⟨h1, h2⟩ := runTrace_ids ops TodoService.init
  refine ⟨?_, ?_, ?_, ?_⟩
  · intro i h
    rw [h1 i h]
    norm_num [TodoService.init]
  · intro i j hi hj hne
    rw [h1 i hi, h1 j hj]
    omega
  · rw [h2]
    norm_num [TodoService.init]
  · cases op with
    | add ti d =>
      rcases add_task_cases s ti d with ⟨task, hadd, hid⟩ | ⟨e, hadd⟩
      · simp only [applyOp, hadd]
        omega
      · simp only [applyOp, hadd]
        omega
    | update i ti de =>
      simp only [applyOp]
      rw [update_task_next_id]
    | setCompleted i c =>
      simp only [applyOp]
      rw [update_task_status_next_id]
    | delete i =>
      simp only [applyOp]
      rw [delete_task_next_id]

/-- C2 witness: a concrete two-add run assigns ids 1 then 2. -/
theorem monotone_id_assignment_witness :
    (runTrace TodoService.init [.add "A" "", .add "B" ""]).2.get
      ⟨0, by decide⟩ = 1 + ((0 : Nat) : Int) :=
  (monotone_id_assignment [.add "A" "", .add "B" ""] TodoService.init
    (.add "A" "")).1 0 (by decide)

theorem getD_append_length {α : Type} (l : List α) (x d : α) :
    (l ++ [x]).getD l.length d = x := by
  induction l with
  | nil => rfl
  | cons a rest ih => simp [ih]

theorem getD_append_lt {α : Type} (l l2 : List α) (j : Nat) (d : α)
    (h : j < l.length) : (l ++ l2).getD j d = l.getD j d := by
  induction l generalizing j with
  | nil => simp at h
  | cons a rest ih =>
    cases j with
    | zero => rfl
    | succ k =>
      have hk : k < rest.length := by simpa using h
      simpa using ih k hk

theorem getD_set_ne {α : Type} (l : List α) (i j : Nat) (x d : α) (h : i ≠ j) :
    (l.set i x).getD j d = l.getD j d := by
  induction l generalizing i j with
  | nil => simp [List.set]
  | cons a rest ih =>
    cases i with
    | zero =>
      cases j with
      | zero => exact absurd rfl h
      | succ k => rfl
    | succ m =>
      cases j with
      | zero => rfl
      | succ k => simpa using ih m k (by omega)

/-- C9: `get_all_tasks` hands back a fresh list object with the same
contents: its pointer differs from the registry's own, and however the
caller mutates the returned list object (append, remove, reorder — any
in-place transformation), the registry's list object still dereferences
to exactly what it held before. -/
theorem list_all_defensive_copy (r : RegistryObj) (h : r.tasksPtr < r.cells.length) :
    (get_all_tasks_alias r).1 ≠ r.tasksPtr ∧
    (get_all_tasks_alias r).2.tasksPtr = r.tasksPtr ∧
    readPtr (get_all_tasks_alias r).2 (get_all_tasks_alias r).1 = readPtr r r.tasksPtr ∧
    ∀ f, readPtr (mutateSeq (get_all_tasks_alias r).2 (get_all_tasks_alias r).1 f)
        r.tasksPtr = readPtr r r.tasksPtr := by
  refine ⟨?_, rfl, ?_, ?_⟩
  · simp only [get_all_tasks_alias]
    omega
  · simp only [get_all_tasks_alias, readPtr]
    exact getD_append_length r.cells (r.cells.getD r.tasksPtr []) []
  · intro f
    simp only [get_all_tasks_alias, mutateSeq, readPtr]
    rw [getD_set_ne _ _ _ _ _ (by omega)]
    exact getD_append_lt r.cells _ r.tasksPtr [] h

/-- C9 witness at a concrete two-cell heap. -/
theorem list_all_defensive_copy_witness :
    (get_all_tasks_alias ⟨[[⟨1, "A", "", false⟩]], 0⟩).1 ≠ 0 ∧
    (get_all_tasks_alias ⟨[[⟨1, "A", "", false⟩]], 0⟩).2.tasksPtr = 0 ∧
    readPtr (get_all_tasks_alias ⟨[[⟨1, "A", "", false⟩]], 0⟩).2
        (get_all_tasks_alias ⟨[[⟨1, "A", "", false⟩]], 0⟩).1 =
      readPtr ⟨[[⟨1, "A", "", false⟩]], 0⟩ 0 ∧
    ∀ f, readPtr (mutateSeq (get_all_tasks_alias ⟨[[⟨1, "A", "", false⟩]], 0⟩).2
        (get_all_tasks_alias ⟨[[⟨1, "A", "", false⟩]], 0⟩).1 f) 0 =
      readPtr ⟨[[⟨1, "A", "", false⟩]], 0⟩ 0 :=
  list_all_defensive_copy ⟨[[⟨1, "A", "", false⟩]], 0⟩ (by decide)

end Todo
